import Mathlib

/-!
Verification development for the tender-document vagueness-analysis pipeline.
The Python sources are shallowly embedded: floats become rationals, text
becomes character lists, and every external (LLM / vector store) response is
an explicit input parameter.
-/

set_option autoImplicit false

namespace MTP

/-! Character helpers, mirroring Python's ASCII-range behaviour on the inputs
used by the pipeline (str.lower, the regex classes \s and \w). -/

def asciiLower (c : Char) : Char :=
  if 65 ≤ c.toNat ∧ c.toNat ≤ 90 then Char.ofNat (c.toNat + 32) else c

def isSpaceChar (c : Char) : Bool :=
  c = ' ' || c = '\t' || c = '\n' || c = '\r' || c = '\x0b' || c = '\x0c'

def isWordChar (c : Char) : Bool :=
  c.isAlphanum || c = '_'

def lowerList (cs : List Char) : List Char :=
  cs.map asciiLower

/-- Python substring test: listStartsWith needle hay is true when hay begins with needle. -/
def listStartsWith : List Char → List Char → Bool
  | [], _ => true
  | _ :: _, [] => false
  | a :: as_, b :: bs => a = b && listStartsWith as_ bs

/-- Python substring containment, as used by the keyword checks (kw in text). -/
def substrIn (needle : List Char) : List Char → Bool
  | [] => listStartsWith needle []
  | c :: rest => listStartsWith needle (c :: rest) || substrIn needle rest

/-! A small regular-expression engine covering exactly the constructs used by
the qualifier patterns and the acronym pattern in the source: literals
(case-insensitive, as all qualifier patterns carry re.IGNORECASE), single
character classes, greedy one-or-more character classes, sequencing,
preferential alternation, the empty pattern (for optional groups) and the
word boundary anchor. -/

inductive RE where
  | eps
  | lit (s : List Char)
  | cls (p : Char → Bool)
  | clsPlus (p : Char → Bool)
  | seq (a b : RE)
  | alt (a b : RE)
  | wordB

/-- Match a literal, consuming characters case-insensitively. -/
def litMatch : List Char → Option Char → List Char → List (Option Char × List Char)
  | [], prev, s => [(prev, s)]
  | _ :: _, _, [] => []
  | c :: cs, _, d :: ds =>
      if asciiLower c = asciiLower d then litMatch cs (some d) ds else []

/-- All ways to match a pattern at the head of the remaining text, in the
backtracking preference order of Python's re engine (left alternative first,
greedy repetition first). Each result carries the last consumed character
(needed by later word-boundary anchors) and the unconsumed suffix. -/
def matchRE : RE → Option Char → List Char → List (Option Char × List Char)
  | .eps, prev, s => [(prev, s)]
  | .lit l, prev, s => litMatch l prev s
  | .cls _, _, [] => []
  | .cls p, _, d :: ds => if p d then [(some d, ds)] else []
  | .clsPlus p, _, s =>
      let run := s.takeWhile p
      let n := run.length
      (List.range n).map (fun j => (some (run.getD (n - 1 - j) ' '), s.drop (n - j)))
  | .seq a b, prev, s => (matchRE a prev s).flatMap (fun pr => matchRE b pr.1 pr.2)
  | .alt a b, prev, s => matchRE a prev s ++ matchRE b prev s
  | .wordB, prev, s =>
      let pw := match prev with | some c => isWordChar c | none => false
      let nw := match s with | c :: _ => isWordChar c | [] => false
      if pw != nw then [(prev, s)] else []

/-- Try to match at position p of the text; on success return the end position
of the preferred match. -/
def matchAt (r : RE) (cs : List Char) (p : Nat) : Option Nat :=
  let prev := if p = 0 then none else some (cs.getD (p - 1) ' ')
  let rest := cs.drop p
  match matchRE r prev rest with
  | [] => none
  | pr :: _ => some (p + (rest.length - pr.2.length))

/-- Scan for non-overlapping matches left to right, as re.finditer does. -/
def finditerAux (r : RE) (cs : List Char) : Nat → Nat → List (Nat × Nat)
  | 0, _ => []
  | fuel + 1, p =>
      if p ≤ cs.length then
        match matchAt r cs p with
        | some e => (p, e) :: finditerAux r cs fuel (max e (p + 1))
        | none => finditerAux r cs fuel (p + 1)
      else []

def finditer (r : RE) (cs : List Char) : List (Nat × Nat) :=
  finditerAux r cs (cs.length + 1) 0

/-- The text of a match, match.group() in Python, from its span. -/
def sliceStr (cs : List Char) (a b : Nat) : String :=
  String.mk ((cs.drop a).take (b - a))

/-! Pattern-building helpers for transcribing the source regexes. -/

def wstr (s : String) : RE := .lit s.toList

def alts : List RE → RE
  | [] => .eps
  | [r] => r
  | r :: rs => .alt r (alts rs)

def grp (ws : List String) : RE := alts (ws.map wstr)

def sp : RE := .clsPlus isSpaceChar

def wp : RE := .clsPlus isWordChar

/-- Words joined by \s+ inside a pattern (e.g. close\s+to). -/
def phraseRE : List String → RE
  | [] => .eps
  | [w] => wstr w
  | w :: ws => .seq (wstr w) (.seq sp (phraseRE ws))

/-- A whole alternation of single words between word boundaries. -/
def bWord (ws : List String) : RE := .seq .wordB (.seq (grp ws) .wordB)

/-- Alternation of multi-word phrases between word boundaries. -/
def bPhr (ps : List (List String)) : RE := .seq .wordB (.seq (alts (ps.map phraseRE)) .wordB)

/-! The five vagueness qualifiers from VaguenessQualifiers._initialize_qualifiers,
with their keyword lists and regex patterns transcribed verbatim. -/

structure Qualifier where
  key : String
  name : String
  keywords : List String
  patterns : List RE

def abstractnessQualifier : Qualifier :=
  { key := "abstractness_subjective"
    name := "Abstractness & Subjective Language"
    keywords :=
      ["quality", "user friendly", "reasonable", "appropriate",
       "adequate", "suitable", "proper", "efficient", "effective",
       "good", "bad", "excellent", "poor", "satisfactory",
       "acceptable", "sufficient", "necessary", "important",
       "significant", "minor", "major", "substantial", "considerable",
       "appropriate", "proper", "correct", "right", "wrong"]
    patterns :=
      [.seq .wordB (.seq (alts [wstr "quality",
          .seq (wstr "user") (.seq (.cls (fun c => isSpaceChar c || c = '-')) (wstr "friendly")),
          wstr "reasonable", wstr "appropriate"]) .wordB),
       bWord ["adequate", "suitable", "proper", "efficient", "effective"],
       bWord ["good", "bad", "excellent", "poor", "satisfactory"],
       bWord ["acceptable", "sufficient", "necessary", "important"],
       bWord ["significant", "minor", "major", "substantial", "considerable"]] }

def ambiguousQualifier : Qualifier :=
  { key := "ambiguous_modifiers"
    name := "Ambiguous Modifiers & Comparative Phrases"
    keywords :=
      ["larger", "smaller", "faster", "slower", "better", "worse",
       "more", "less", "higher", "lower", "greater", "lesser",
       "improved", "enhanced", "optimized", "minimized", "maximized",
       "increased", "decreased", "reduced", "expanded",
       "approximately", "about", "around", "roughly", "nearly",
       "almost", "close to", "up to", "as much as"]
    patterns :=
      [bWord ["larger", "smaller", "faster", "slower", "better", "worse"],
       bWord ["more", "less", "higher", "lower", "greater", "lesser"],
       bWord ["improved", "enhanced", "optimized"],
       bWord ["approximately", "about", "around", "roughly", "nearly"],
       bPhr [["almost"], ["close", "to"], ["up", "to"]]] }

def referentQualifier : Qualifier :=
  { key := "referent_ambiguity"
    name := "Referent Ambiguity & Complex Noun Phrases"
    keywords :=
      ["it", "they", "them", "this", "that", "these", "those",
       "such", "said", "aforementioned", "following", "preceding",
       "implementation", "execution", "completion", "establishment",
       "development", "creation", "formation", "construction"]
    patterns :=
      [.seq .wordB (.seq (grp ["it", "they", "them", "this", "that", "these", "those"])
         (.seq sp wp)),
       bWord ["such", "said", "aforementioned"],
       .seq .wordB (.seq (grp ["implementation", "execution", "completion", "establishment"])
         (.seq sp (.seq (wstr "of") .wordB))),
       .seq .wordB (.seq (grp ["development", "creation", "formation", "construction"])
         (.seq sp (.seq (wstr "of") .wordB)))] }

def openEndedQualifier : Qualifier :=
  { key := "open_ended_terms"
    name := "Open-Ended / Non-Verifiable Terms & Loopholes"
    keywords :=
      ["if feasible", "where possible", "if necessary", "as required",
       "when needed", "if applicable", "subject to", "depending on",
       "may", "might", "could", "should", "would",
       "not limited to", "including but not limited to",
       "among others", "etc", "and so on", "and the like",
       "as appropriate", "as deemed necessary", "at discretion"]
    patterns :=
      [.seq .wordB (.seq (grp ["if", "where"]) (.seq sp
         (.seq (grp ["feasible", "possible", "necessary", "required", "applicable"]) .wordB))),
       .seq .wordB (.seq (grp ["when", "as"]) (.seq sp
         (.seq (grp ["needed", "required", "appropriate", "deemed"]) .wordB))),
       bWord ["may", "might", "could", "should", "would"],
       bPhr [["not", "limited", "to"], ["including", "but", "not", "limited", "to"]],
       bPhr [["etc"], ["and", "so", "on"], ["among", "others"], ["and", "the", "like"]],
       bPhr [["subject", "to"], ["depending", "on"]]] }

def negativePassiveQualifier : Qualifier :=
  { key := "negative_passive"
    name := "Negative & Passive Structures"
    keywords :=
      ["will be", "shall be", "is to be", "are to be",
       "should be", "must be", "can be", "may be",
       "should not", "must not", "cannot", "may not",
       "will not", "shall not", "is not to", "are not to"]
    patterns :=
      [.seq .wordB (.seq (grp ["will", "shall", "should", "must", "can", "may"])
         (.seq sp (.seq (wstr "be") (.seq sp wp)))),
       .seq .wordB (.seq (grp ["is", "are", "was", "were"])
         (.seq sp (.seq (wstr "to") (.seq sp (.seq (wstr "be") (.seq sp wp)))))),
       .seq .wordB (.seq (grp ["should", "must", "cannot", "may", "will", "shall"])
         (.seq sp (.seq (wstr "not") .wordB))),
       .seq .wordB (.seq (grp ["is", "are"])
         (.seq sp (.seq (wstr "not") (.seq sp (.seq (wstr "to") .wordB)))))] }

def qualifiers : List Qualifier :=
  [abstractnessQualifier, ambiguousQualifier, referentQualifier,
   openEndedQualifier, negativePassiveQualifier]

/-- One recorded rule match, as built by check_text_for_qualifier. Keyword
matches carry no position; pattern matches carry their span. -/
structure MatchRec where
  mtype : String
  matched : String
  pos : Option (Nat × Nat)
  qualifier : String
  qualifier_name : String
deriving DecidableEq, Repr

/-- VaguenessQualifiers.check_text_for_qualifier: keyword substring hits on the
lowercased text, then case-insensitive regex hits, in source order. -/
def check_text_for_qualifier (text : String) (q : Qualifier) : List MatchRec :=
  let tl := text.toList
  let tLower := lowerList tl
  let kwMatches := q.keywords.filterMap (fun kw =>
    if substrIn (lowerList kw.toList) tLower then
      some { mtype := "keyword", matched := kw, pos := none,
             qualifier := q.key, qualifier_name := q.name }
    else none)
  let patMatches := q.patterns.flatMap (fun r =>
    (finditer r tl).map (fun s =>
      { mtype := "pattern", matched := sliceStr tl s.1 s.2, pos := some s,
        qualifier := q.key, qualifier_name := q.name }))
  kwMatches ++ patMatches

/-- VaguenessQualifiers.check_text_all_qualifiers: an insertion-ordered mapping
from qualifier key to its matches, keeping only qualifiers that fired. -/
def check_text_all_qualifiers (text : String) : List (String × List MatchRec) :=
  qualifiers.filterMap (fun q =>
    let ms := check_text_for_qualifier text q
    if ms.isEmpty then none else some (q.key, ms))

/-! Acronym detection from VaguenessDetector._detect_acronyms. -/

def isUpperChar (c : Char) : Bool := c.isUpper

def isDigitChar (c : Char) : Bool := c.isDigit

def optRE (r : RE) : RE := .alt r .eps

/-- The acronym regex \b[A-Z]\x7b2,\x7d(?:\d+)?(?::[A-Z]?\d+)?\b. -/
def acronymRE : RE :=
  .seq .wordB (.seq (.cls isUpperChar) (.seq (.clsPlus isUpperChar)
    (.seq (optRE (.clsPlus isDigitChar))
      (.seq (optRE (.seq (wstr ":") (.seq (optRE (.cls isUpperChar)) (.clsPlus isDigitChar))))
        .wordB))))

def COMMON_ACRONYMS : List (String × String) :=
  [("IS", "Indian Standard"), ("CPWD", "Central Public Works Department"),
   ("PWD", "Public Works Department"), ("RCC", "Reinforced Cement Concrete"),
   ("PCC", "Plain Cement Concrete"), ("DPC", "Damp Proof Course"),
   ("BOQ", "Bill of Quantities"), ("SOR", "Schedule of Rates"),
   ("M&E", "Mechanical and Electrical"),
   ("HVAC", "Heating, Ventilation, and Air Conditioning"),
   ("PSC", "Prestressed Concrete"), ("TMT", "Thermo-Mechanically Treated"),
   ("OPC", "Ordinary Portland Cement"), ("PPC", "Portland Pozzolana Cement")]

structure Acronym where
  acronym : String
  pos : Nat × Nat
  known : Bool
  meaning : String
deriving DecidableEq, Repr

def detect_acronyms (text : String) : List Acronym :=
  (finditer acronymRE text.toList).map (fun s =>
    let a := sliceStr text.toList s.1 s.2
    { acronym := a, pos := s,
      known := (COMMON_ACRONYMS.lookup a).isSome,
      meaning := (COMMON_ACRONYMS.lookup a).getD "Unknown" })

/-! The LLM side of the classifier. A call attempt either yields a parsed
structured analysis or fails with an error message (covering both transport
errors and unparseable responses, which the source catches uniformly). -/

structure GeminiAnalysis where
  is_vague : Bool
  vague_phrases : List String
  categories : List String
  explanation : String
  severity : String
deriving DecidableEq, Repr

inductive AttemptResult where
  | ok (g : GeminiAnalysis)
  | err (msg : String)
deriving DecidableEq, Repr

/-- The safe fallback built in the except branch of _analyze_with_gemini. -/
def fallbackAnalysis (msg : String) : GeminiAnalysis :=
  { is_vague := false, vague_phrases := [], categories := [],
    explanation := "Error in analysis: " ++ msg, severity := "unknown" }

/-- The network/timeout test: any of the four markers occurs in the lowercased
error message. -/
def isNetworkError (msg : String) : Bool :=
  let l := lowerList msg.toList
  substrIn "timeout".toList l || substrIn "connect".toList l ||
    substrIn "503".toList l || substrIn "network".toList l

/-- The retry loop of _analyze_with_gemini over the outcomes of successive
attempts (the list has one entry per loop iteration, so its length is the
configured max_retries). Returns the analysis the Python function returns
(none models falling out of the loop, which only happens with zero attempts)
together with the list of backoff sleeps performed, each (attempt+1)*2. -/
def analyzeGo : Nat → List AttemptResult → Option GeminiAnalysis × List Nat
  | _, [] => (none, [])
  | i, a :: rest =>
      match a with
      | .ok g => (some g, [])
      | .err m =>
          if isNetworkError m then
            match rest with
            | [] => (some (fallbackAnalysis m), [])
            | b :: rest2 =>
                let r := analyzeGo (i + 1) (b :: rest2)
                (r.1, (i + 1) * 2 :: r.2)
          else (some (fallbackAnalysis m), [])

def analyze_with_gemini (attempts : List AttemptResult) : Option GeminiAnalysis × List Nat :=
  analyzeGo 0 attempts

/-- The severity table lookup severity_scores.get(severity, 0.35). -/
def severityScore (s : String) : ℚ :=
  if s = "low" then 1/5 else if s = "medium" then 7/20 else if s = "high" then 1/2 else 7/20

def totalRuleMatches (rule_based_matches : List (String × List MatchRec)) : Nat :=
  (rule_based_matches.map (fun p => p.2.length)).sum

/-- The rule-based contribution: 0.1 per match, capped at 0.5, only added when
any qualifier fired. -/
def ruleComponent (rule_based_matches : List (String × List MatchRec)) : ℚ :=
  if rule_based_matches.isEmpty then 0
  else min ((totalRuleMatches rule_based_matches : ℚ) * (1/10)) (1/2)

/-- The LLM contribution: the severity-keyed value when judged vague, else 0. -/
def llmComponent (gemini_analysis : GeminiAnalysis) : ℚ :=
  if gemini_analysis.is_vague then severityScore gemini_analysis.severity else 0

/-- VaguenessDetector._calculate_vagueness_score. -/
def calculate_vagueness_score (rule_based_matches : List (String × List MatchRec))
    (gemini_analysis : GeminiAnalysis) : ℚ :=
  min (ruleComponent rule_based_matches + llmComponent gemini_analysis) 1

structure DetectionResult where
  chunk_id : Nat
  text : String
  is_vague : Bool
  rule_based_matches : List (String × List MatchRec)
  gemini_analysis : GeminiAnalysis
  acronyms : List Acronym
  vagueness_score : ℚ

/-- VaguenessDetector.detect_vagueness_in_text, with the LLM attempt outcomes
passed in explicitly. none models the crash that would follow a None analysis
(possible only when the attempt list is empty). -/
def detect_vagueness_in_text (text : String) (chunk_id : Nat)
    (attempts : List AttemptResult) : Option DetectionResult :=
  let rule_based_matches := check_text_all_qualifiers text
  match (analyze_with_gemini attempts).1 with
  | none => none
  | some g =>
      some { chunk_id := chunk_id, text := text,
             is_vague := !rule_based_matches.isEmpty || g.is_vague,
             rule_based_matches := rule_based_matches,
             gemini_analysis := g,
             acronyms := detect_acronyms text,
             vagueness_score := calculate_vagueness_score rule_based_matches g }

/-! Cross-reference scoring, CrossReferenceAnalyzer.calculate_cross_reference_score. -/

structure RelevanceJudgment where
  is_relevant : Bool
  relevance_score : ℚ
  clarification_type : String
  source_document : String
deriving DecidableEq, Repr

/-- The weight table type_weights, with .get default 0 for unknown types. -/
def type_weight (ct : String) : ℚ :=
  if ct = "definition" then 2/5
  else if ct = "specification" then 3/10
  else if ct = "standard" then 3/10
  else if ct = "example" then 1/5
  else 0

structure XRefReasoning where
  score : ℚ
  interpretation : String
  evidence_count : Nat
  clarification_types : List String
deriving DecidableEq, Repr

/-- avg_relevance over the relevant judgments. -/
def xrefAvgRelevance (relevant : List RelevanceJudgment) : ℚ :=
  (relevant.map (fun c => c.relevance_score)).sum / (relevant.length : ℚ)

/-- source_diversity: distinct source documents among the relevant judgments. -/
def xrefSourceDiversity (relevant : List RelevanceJudgment) : Nat :=
  ((relevant.map (fun c => c.source_document)).dedup).length

def xrefDiversityBonus (relevant : List RelevanceJudgment) : ℚ :=
  min ((xrefSourceDiversity relevant : ℚ) * (1/10)) (3/10)

def xrefTypeBonus (relevant : List RelevanceJudgment) : ℚ :=
  ((relevant.map (fun c => c.clarification_type)).map type_weight).sum /
    ((relevant.map (fun c => c.clarification_type)).length : ℚ)

/-- final_score = min(base_score + bonus_score, 1.0). -/
def xrefFinalScore (relevant : List RelevanceJudgment) : ℚ :=
  min (xrefAvgRelevance relevant * (1/2) +
    (xrefDiversityBonus relevant + xrefTypeBonus relevant) * (1/2)) 1

def xrefInterpretation (final_score : ℚ) : String :=
  if final_score ≥ 4/5 then "strong_clarification"
  else if final_score ≥ 3/5 then "moderate_clarification"
  else if final_score ≥ 2/5 then "partial_clarification"
  else "weak_clarification"

def calculate_cross_reference_score (relevance_analyses : List RelevanceJudgment) :
    ℚ × XRefReasoning :=
  if relevance_analyses.isEmpty then
    (0, { score := 0, interpretation := "no_information", evidence_count := 0,
          clarification_types := [] })
  else
    let relevant_chunks := relevance_analyses.filter (fun a => a.is_relevant)
    if relevant_chunks.isEmpty then
      (1/10, { score := 1/10, interpretation := "weak_connection", evidence_count := 0,
               clarification_types := [] })
    else
      (xrefFinalScore relevant_chunks,
       { score := xrefFinalScore relevant_chunks
         interpretation := xrefInterpretation (xrefFinalScore relevant_chunks)
         evidence_count := relevant_chunks.length
         clarification_types :=
           ((relevant_chunks.map (fun c => c.clarification_type)).filter
             (fun ct => ct ≠ "none")).dedup })

/-! The sentence segmenter, TextChunker. -/

structure Chunk where
  chunk_id : String
  text : String
  start_sentence : Int
  end_sentence : Int
deriving DecidableEq, Repr

theorem dropWhileLengthLe (p : Char → Bool) (l : List Char) :
    (l.dropWhile p).length ≤ l.length := by
  induction l with
  | nil => simp [List.dropWhile]
  | cons c rest ih =>
    simp only [List.dropWhile]
    by_cases h : p c = true
    · simp [h]; omega
    · simp [h]

/-- re.split with the lookbehind pattern (?<=[.!?])\s+: a sentence ends at a
whitespace run whose immediately preceding character is ., ! or ?. The fuel
argument (one unit per consumed character) only makes the recursion
structural; it never runs out when started at the text length. -/
def splitSentencesGo : Nat → List Char → List Char → List (List Char)
  | _, [], acc => [acc.reverse]
  | 0, _ :: _, acc => [acc.reverse]
  | fuel + 1, c :: rest, acc =>
      if isSpaceChar c ∧ (acc.head? = some '.' ∨ acc.head? = some '!' ∨ acc.head? = some '?') then
        acc.reverse :: splitSentencesGo fuel (rest.dropWhile isSpaceChar) []
      else splitSentencesGo fuel rest (c :: acc)

/-- Python str.strip on the whitespace class. -/
def stripStr (cs : List Char) : List Char :=
  ((cs.dropWhile isSpaceChar).reverse.dropWhile isSpaceChar).reverse

/-- TextChunker._split_into_sentences. -/
def split_into_sentences (text : String) : List String :=
  ((splitSentencesGo text.toList.length text.toList []).map
    (fun s => String.mk (stripStr s))).filter (fun s => s ≠ "")

/-- Base name sanitization: filename.rsplit with one split on the dot, then
spaces and hyphens mapped to underscores. -/
def sanitizeBase (filename : String) : String :=
  let cs := filename.toList
  let beforeExt :=
    match cs.reverse.dropWhile (fun c => c ≠ '.') with
    | [] => cs
    | _ :: pre => pre.reverse
  String.mk (beforeExt.map (fun c => if c = ' ' ∨ c = '-' then '_' else c))

/-- TextChunker._get_overlap_sentences: walk the chunk backwards, prepending
sentences until the accumulated character count reaches the overlap budget. -/
def overlapGo (overlap : Nat) : List String → Nat → List String → List String
  | [], _, acc => acc
  | s :: rest, chars, acc =>
      let c := chars + s.length
      let acc2 := s :: acc
      if overlap ≤ c then acc2 else overlapGo overlap rest c acc2

def get_overlap_sentences (overlap : Nat) (sentences : List String) : List String :=
  overlapGo overlap sentences.reverse 0 []

def joinSpace (l : List String) : String := String.intercalate " " l

def mkChunk (base : String) (cid : Nat) (cur : List String) (i : Nat) : Chunk :=
  { chunk_id := base ++ "_chunk_" ++ toString cid
    text := joinSpace cur
    start_sentence := (i : Int) - (cur.length : Int)
    end_sentence := (i : Int) - 1 }

/-- The accumulation loop of TextChunker.chunk_by_sentences: close the current
chunk exactly when appending the next sentence would push the accumulated
character count past chunk_size and the current chunk is non-empty; on close,
carry the overlap sentences forward. -/
def chunkGo (chunk_size overlap : Nat) (base : String) :
    List String → Nat → List String → Nat → Nat → List Chunk
  | [], i, cur, _, cid => if cur.isEmpty then [] else [mkChunk base cid cur i]
  | s :: rest, i, cur, len, cid =>
      if chunk_size < len + s.length ∧ ¬cur.isEmpty then
        let ov := get_overlap_sentences overlap cur
        mkChunk base cid cur i ::
          chunkGo chunk_size overlap base rest (i + 1) (ov ++ [s])
            ((ov.map String.length).sum + s.length) (cid + 1)
      else chunkGo chunk_size overlap base rest (i + 1) (cur ++ [s]) (len + s.length) cid

/-- TextChunker.chunk_by_sentences (metadata reduced to the filename, the only
field the function reads). -/
def chunk_by_sentences (chunk_size overlap : Nat) (text filename : String) : List Chunk :=
  let sentences := split_into_sentences text
  let base := sanitizeBase filename
  chunkGo chunk_size overlap base sentences 0 [] 0 0

/-! Cross-reference candidate search, CrossReferenceAnalyzer.search_related_chunks,
over the rows the vector store returned (parallel lists flattened to one row
per hit), and the id under which add_documents_to_collection stored a chunk. -/

structure SearchRow where
  doc : String
  metadata : List (String × String)
  distance : ℚ
  rowId : Option String
deriving DecidableEq, Repr

structure FormattedResult where
  text : String
  metadata : List (String × String)
  distance : ℚ
  resId : Option String
  similarity_score : ℚ
deriving DecidableEq, Repr

/-- The id an entry gets in the collection: "chunk_" prefixed to the segmenter
chunk id (add_documents_to_collection). -/
def storage_id (chunk_id : String) : String := "chunk_" ++ chunk_id

def search_related_chunks (rows : List SearchRow) (exclude_chunk_id : Option String) :
    List FormattedResult :=
  rows.filterMap (fun r =>
    if r.rowId = exclude_chunk_id then none
    else some { text := r.doc, metadata := r.metadata, distance := r.distance,
                resId := r.rowId, similarity_score := 1 - r.distance })

/-! Suggestion-agent retrieval merge, SuggestionAgent.retrieve_relevant_chunks. -/

structure RChunk where
  text : String
  metadata : List (String × String)
  distance : Option ℚ
  rcId : Option String
deriving DecidableEq, Repr

/-- Python truthiness of the id field: present and non-empty. -/
def truthyId : Option String → Bool
  | none => false
  | some s => s ≠ ""

/-- The dict-based dedup: keep a chunk when its id is truthy and not seen yet;
dict insertion order makes the output the first-seen order. -/
def dedupById (seen : List String) : List RChunk → List RChunk
  | [] => []
  | c :: rest =>
      match c.rcId with
      | none => dedupById seen rest
      | some s =>
          if s = "" then dedupById seen rest
          else if s ∈ seen then dedupById seen rest
          else c :: dedupById (s :: seen) rest

def retrieve_relevant_chunks (search_terms : List String)
    (retr : String → List RChunk) : List RChunk :=
  dedupById [] (search_terms.flatMap retr)

/-! Theorems about the embedded pipeline, one per specification claim. -/

theorem severityScore_nonneg (s : String) : 0 ≤ severityScore s := by
  unfold severityScore
  split
  · norm_num
  · split
    · norm_num
    · split <;> norm_num

theorem ruleComponent_nonneg (m : List (String × List MatchRec)) : 0 ≤ ruleComponent m := by
  unfold ruleComponent
  split
  · exact le_refl 0
  · exact le_min (by positivity) (by norm_num)

theorem llmComponent_nonneg (g : GeminiAnalysis) : 0 ≤ llmComponent g := by
  unfold llmComponent
  split
  · exact severityScore_nonneg g.severity
  · exact le_refl 0

/-- C3: the fused vagueness score is the capped rule component (0.1 per match,
capped at 0.5) plus the severity-keyed LLM component (low 0.2, medium 0.35,
high 0.5, default 0.35; 0 when not vague), clamped so the result always lies
in the unit interval. -/
theorem claim3_vagueness_score_fusion (m : List (String × List MatchRec))
    (g : GeminiAnalysis) :
    calculate_vagueness_score m g =
      min (min ((totalRuleMatches m : ℚ) * (1/10)) (1/2) +
        (if g.is_vague then
          (if g.severity = "low" then 1/5
           else if g.severity = "medium" then 7/20
           else if g.severity = "high" then 1/2 else 7/20)
         else 0)) 1 ∧
    0 ≤ calculate_vagueness_score m g ∧ calculate_vagueness_score m g ≤ 1 := by
  refine ⟨?_, ?_, ?_⟩
  · unfold calculate_vagueness_score ruleComponent llmComponent severityScore
    rcases m with _ | ⟨a, rest⟩
    · simp [totalRuleMatches]
    · simp
  · exact le_min (add_nonneg (ruleComponent_nonneg m) (llmComponent_nonneg g)) (by norm_num)
  · exact min_le_right _ _

/-- C8: search_related_chunks drops exactly the rows whose stored id equals
the excluded id, so no returned (hence no judged) candidate carries the id of
the chunk under analysis, for any store whose ids come from
add_documents_to_collection. -/
theorem claim8_search_excludes_source (rows : List SearchRow) (ex : String)
    (_hstore : ∀ r ∈ rows, ∃ cid, r.rowId = some (storage_id cid)) :
    (∀ f ∈ search_related_chunks rows (some ex), f.resId ≠ some ex) ∧
    (∀ f ∈ (search_related_chunks rows (some ex)).take 5, f.resId ≠ some ex) := by
  have key : ∀ f ∈ search_related_chunks rows (some ex), f.resId ≠ some ex := by
    intro f hf
    unfold search_related_chunks at hf
    rcases List.mem_filterMap.mp hf with ⟨r, _, hr⟩
    by_cases h : r.rowId = some ex
    · simp [h] at hr
    · simp only [h, if_false] at hr
      cases hr
      simpa using h
  exact ⟨key, fun f hf => key f (List.take_subset 5 _ hf)⟩

theorem dedupById_cons (seen : List String) (c0 : RChunk) (rest : List RChunk) :
    dedupById seen (c0 :: rest) =
      match c0.rcId with
      | none => dedupById seen rest
      | some s =>
          if s = "" then dedupById seen rest
          else if s ∈ seen then dedupById seen rest
          else c0 :: dedupById (s :: seen) rest := rfl

/-- The behaviour of the insertion-ordered dict dedup in
retrieve_relevant_chunks, generalized over the already-seen id set. -/
theorem dedupById_spec (l : List RChunk) (seen : List String) :
    (dedupById seen l).Sublist l ∧
    ((dedupById seen l).map (fun c => c.rcId)).Nodup ∧
    (∀ c ∈ dedupById seen l, ∃ s, c.rcId = some s ∧ s ≠ "" ∧ s ∉ seen ∧
      l.find? (fun x => x.rcId == some s) = some c) := by
  induction l generalizing seen with
  | nil => simp [dedupById]
  | cons c0 rest ih =>
    rcases hid : c0.rcId with _ | s0
    · have heq : dedupById seen (c0 :: rest) = dedupById seen rest := by
        rw [dedupById_cons, hid]
      rw [heq]
      refine ⟨(ih seen).1.cons c0, (ih seen).2.1, ?_⟩
      intro c hc
      rcases (ih seen).2.2 c hc with ⟨s, hs, hne, hnotin, hfind⟩
      refine ⟨s, hs, hne, hnotin, ?_⟩
      rw [List.find?_cons_of_neg, hfind]
      simp [hid]
    · by_cases hemp : s0 = ""
      · have heq : dedupById seen (c0 :: rest) = dedupById seen rest := by
          rw [dedupById_cons, hid]; simp [hemp]
        rw [heq]
        refine ⟨(ih seen).1.cons c0, (ih seen).2.1, ?_⟩
        intro c hc
        rcases (ih seen).2.2 c hc with ⟨s, hs, hne, hnotin, hfind⟩
        refine ⟨s, hs, hne, hnotin, ?_⟩
        rw [List.find?_cons_of_neg, hfind]
        simp [hid, hemp]
        intro h
        exact hne h.symm
      · by_cases hseen : s0 ∈ seen
        · have heq : dedupById seen (c0 :: rest) = dedupById seen rest := by
            rw [dedupById_cons, hid]; simp [hemp, hseen]
          rw [heq]
          refine ⟨(ih seen).1.cons c0, (ih seen).2.1, ?_⟩
          intro c hc
          rcases (ih seen).2.2 c hc with ⟨s, hs, hne, hnotin, hfind⟩
          refine ⟨s, hs, hne, hnotin, ?_⟩
          rw [List.find?_cons_of_neg, hfind]
          simp [hid]
          intro h
          exact hnotin (h ▸ hseen)
        · have heq : dedupById seen (c0 :: rest) = c0 :: dedupById (s0 :: seen) rest := by
            rw [dedupById_cons, hid]; simp [hemp, hseen]
          rw [heq]
          refine ⟨(ih (s0 :: seen)).1.cons₂ c0, ?_, ?_⟩
          · rw [List.map_cons, List.nodup_cons]
            refine ⟨?_, (ih (s0 :: seen)).2.1⟩
            intro hmem
            rcases List.mem_map.mp hmem with ⟨c, hc, hcid⟩
            rcases (ih (s0 :: seen)).2.2 c hc with ⟨s, hs, _, hnotin, _⟩
            rw [hid, hs] at hcid
            cases hcid
            exact hnotin (List.mem_cons_self _ _)
          · intro c hc
            rcases List.mem_cons.mp hc with hc0 | hc2
            · subst hc0
              refine ⟨s0, hid, hemp, hseen, ?_⟩
              rw [List.find?_cons_of_pos]
              simp [hid]
            · rcases (ih (s0 :: seen)).2.2 c hc2 with ⟨s, hs, hne, hnotin, hfind⟩
              have hs0 : s ≠ s0 := fun h => hnotin (h ▸ List.mem_cons_self _ _)
              refine ⟨s, hs, hne, fun h => hnotin (List.mem_cons_of_mem _ h), ?_⟩
              rw [List.find?_cons_of_neg, hfind]
              simp [hid]
              intro h
              exact hs0 h.symm

/-- C9: the merged retrieval list never holds two entries with the same id,
keeps only first occurrences, and preserves first-seen order (it is a
subsequence of the concatenated per-term results). -/
theorem claim9_retrieval_dedup (terms : List String) (retr : String → List RChunk) :
    ((retrieve_relevant_chunks terms retr).map (fun c => c.rcId)).Nodup ∧
    (retrieve_relevant_chunks terms retr).Sublist (terms.flatMap retr) ∧
    (∀ c ∈ retrieve_relevant_chunks terms retr, ∃ s, c.rcId = some s ∧ s ≠ "" ∧
      (terms.flatMap retr).find? (fun x => x.rcId == some s) = some c) := by
  have h := dedupById_spec (terms.flatMap retr) []
  refine ⟨h.2.1, h.1, ?_⟩
  intro c hc
  rcases h.2.2 c hc with ⟨s, hs, hne, _, hfind⟩
  exact ⟨s, hs, hne, hfind⟩

/-- C10: deduplication silently discards every retrieved chunk whose id is
missing or empty — all surviving entries have a truthy id, and the output can
be strictly shorter than a duplicate-free input without any error. -/
theorem claim10_falsy_ids_discarded :
    (∀ (terms : List String) (retr : String → List RChunk),
      ∀ c ∈ retrieve_relevant_chunks terms retr, truthyId c.rcId = true) ∧
    (∃ (terms : List String) (retr : String → List RChunk),
      ((terms.flatMap retr).map (fun c => c.rcId)).Nodup ∧
      (retrieve_relevant_chunks terms retr).length < (terms.flatMap retr).length) := by
  constructor
  · intro terms retr c hc
    rcases (dedupById_spec (terms.flatMap retr) []).2.2 c hc with ⟨s, hs, hne, _, _⟩
    simp [truthyId, hs, hne]
  · refine ⟨["t"], fun _ => [{ text := "a", metadata := [], distance := none, rcId := none }], ?_, ?_⟩
    · simp
    · simp [retrieve_relevant_chunks, dedupById]

/-- Concrete store rows for the C8 witness: the first row is the stored copy
of a chunk whose storage id collides with the analyzed chunk's id. -/
def c8rows : List SearchRow :=
  [{ doc := "t1", metadata := [], distance := 0, rowId := some (storage_id "foo_chunk_3") },
   { doc := "t2", metadata := [], distance := 0, rowId := some (storage_id "bar_chunk_0") }]

/-- C8 witness: when a stored chunk from document foo happens to be stored
under exactly the analyzed chunk's id (base name chunk_foo), its candidate row
is excluded from the search output. -/
theorem claim8_witness :
    ({ text := "t1", metadata := [], distance := 0, resId := some "chunk_foo_chunk_3",
       similarity_score := 1 } : FormattedResult) ∉
      search_related_chunks c8rows (some "chunk_foo_chunk_3") := by
  intro hmem
  have hstore : ∀ r ∈ c8rows, ∃ cid, r.rowId = some (storage_id cid) := by
    intro r hr
    rcases List.mem_cons.mp hr with h1 | h2
    · exact ⟨"foo_chunk_3", by rw [h1]⟩
    · rcases List.mem_cons.mp h2 with h3 | h4
      · exact ⟨"bar_chunk_0", by rw [h3]⟩
      · simp at h4
  exact (claim8_search_excludes_source c8rows "chunk_foo_chunk_3" hstore).1 _ hmem rfl

/-- Concrete per-term retrieval results for the C9 witness: the two search
terms overlap on id x. -/
def c9retr (t : String) : List RChunk :=
  if t = "t1" then
    [{ text := "a", metadata := [], distance := none, rcId := some "x" },
     { text := "b", metadata := [], distance := none, rcId := none }]
  else
    [{ text := "c", metadata := [], distance := none, rcId := some "x" },
     { text := "d", metadata := [], distance := none, rcId := some "y" }]

/-- C9 witness: with two overlapping search terms both returning id x, the
merged list keeps the first-seen occurrence of x. -/
theorem claim9_witness :
    (["t1", "t2"].flatMap c9retr).find? (fun x => x.rcId == some "x") =
      some { text := "a", metadata := [], distance := none, rcId := some "x" } := by
  have h := (claim9_retrieval_dedup ["t1", "t2"] c9retr).2.2
  rcases h { text := "a", metadata := [], distance := none, rcId := some "x" }
      (by decide) with ⟨s, hs, _, hfind⟩
  have hx : some "x" = some s := hs
  injection hx with hx2
  subst hx2
  exact hfind

/-- C10 witness: a surviving entry of a concrete retrieval has a truthy id. -/
theorem claim10_witness :
    truthyId (RChunk.rcId { text := "a", metadata := [], distance := none, rcId := some "x" }) =
      true :=
  claim10_falsy_ids_discarded.1 ["t"]
    (fun _ => [{ text := "a", metadata := [], distance := none, rcId := some "x" }]) _ (by decide)

/-! The retry loop: unfolding equations and the network-prefix lemma. -/

theorem analyzeGo_cons (i : Nat) (a : AttemptResult) (rest : List AttemptResult) :
    analyzeGo i (a :: rest) =
      match a with
      | .ok g => (some g, [])
      | .err m =>
          if isNetworkError m then
            match rest with
            | [] => (some (fallbackAnalysis m), [])
            | b :: rest2 =>
                ((analyzeGo (i + 1) (b :: rest2)).1,
                 (i + 1) * 2 :: (analyzeGo (i + 1) (b :: rest2)).2)
          else (some (fallbackAnalysis m), []) := by
  cases a with
  | ok g => rfl
  | err m =>
    cases rest with
    | nil => rfl
    | cons b rest2 => rfl

theorem rangeMapShift (i n : Nat) :
    (List.range (n + 1)).map (fun j => (i + j + 1) * 2) =
      (i + 1) * 2 :: (List.range n).map (fun j => (i + 1 + j + 1) * 2) := by
  rw [List.range_succ_eq_map]
  simp only [List.map_cons, List.map_map]
  refine congrArg₂ List.cons (by ring) ?_
  refine List.map_congr_left ?_
  intro j _
  simp only [Function.comp_apply, Nat.succ_eq_add_one]
  ring

/-- Processing a prefix of network errors only accumulates one backoff sleep
per failed attempt, then behaves like the loop restarted at the next attempt. -/
theorem analyzeGoNetErrs (pre : List String) :
    ∀ (i : Nat) (a : AttemptResult) (rest : List AttemptResult),
    (∀ m ∈ pre, isNetworkError m = true) →
    analyzeGo i (pre.map .err ++ a :: rest) =
      ((analyzeGo (i + pre.length) (a :: rest)).1,
       (List.range pre.length).map (fun j => (i + j + 1) * 2) ++
         (analyzeGo (i + pre.length) (a :: rest)).2) := by
  induction pre with
  | nil => intro i a rest _; simp
  | cons m pre2 ih =>
    intro i a rest h
    have hm : isNetworkError m = true := h m (List.mem_cons_self _ _)
    have hlist : (m :: pre2).map AttemptResult.err ++ a :: rest =
        .err m :: (pre2.map .err ++ a :: rest) := by simp
    rw [hlist, analyzeGo_cons]
    rcases pre2 with _ | ⟨m2, pre3⟩
    · have h1 : List.range 1 = [0] := rfl
      simp [hm, h1]
    · have htail : (m2 :: pre3).map AttemptResult.err ++ a :: rest =
          .err m2 :: (pre3.map .err ++ a :: rest) := by simp
      simp only [hm, if_true, htail]
      rw [← htail, ih (i + 1) a rest (fun x hx => h x (List.mem_cons_of_mem _ hx))]
      have hlen : i + 1 + (m2 :: pre3).length = i + (m :: m2 :: pre3).length := by
        simp only [List.length_cons]
        omega
      rw [hlen]
      rw [show (m :: m2 :: pre3).length = (m2 :: pre3).length + 1 from rfl]
      rw [rangeMapShift i (m2 :: pre3).length]
      simp [List.cons_append]

theorem isEmptyFalseOfNe {α : Type} {l : List α} (h : l ≠ []) : l.isEmpty = false := by
  rcases l with _ | ⟨a, rest⟩
  · cases h rfl
  · rfl

/-- C5: only errors whose message marks them as network/timeout are retried,
each retry sleeping 2 seconds times the attempt number; any other failure
(including a parse failure) returns the safe fallback immediately, and after
the last configured attempt the fallback is returned rather than raising. -/
theorem claim5_retry_policy (pre : List String)
    (hpre : ∀ m ∈ pre, isNetworkError m = true) :
    (∀ (m : String) (rest : List AttemptResult), isNetworkError m = false →
      analyze_with_gemini (pre.map .err ++ .err m :: rest) =
        (some (fallbackAnalysis m), (List.range pre.length).map (fun j => (j + 1) * 2))) ∧
    (∀ (g : GeminiAnalysis) (rest : List AttemptResult),
      analyze_with_gemini (pre.map .err ++ .ok g :: rest) =
        (some g, (List.range pre.length).map (fun j => (j + 1) * 2))) ∧
    (∀ last : String, isNetworkError last = true →
      analyze_with_gemini (pre.map .err ++ [.err last]) =
        (some (fallbackAnalysis last), (List.range pre.length).map (fun j => (j + 1) * 2))) := by
  have hnorm : (List.range pre.length).map (fun j => (0 + j + 1) * 2) =
      (List.range pre.length).map (fun j => (j + 1) * 2) := by
    refine List.map_congr_left ?_
    intro j _
    ring
  refine ⟨?_, ?_, ?_⟩
  · intro m rest hm
    unfold analyze_with_gemini
    rw [analyzeGoNetErrs pre 0 (.err m) rest hpre, analyzeGo_cons]
    rw [← hnorm]
    simp [hm]
  · intro g rest
    unfold analyze_with_gemini
    rw [analyzeGoNetErrs pre 0 (.ok g) rest hpre, analyzeGo_cons]
    rw [← hnorm]
    simp
  · intro last hlast
    unfold analyze_with_gemini
    rw [analyzeGoNetErrs pre 0 (.err last) [] hpre, analyzeGo_cons]
    rw [← hnorm]
    simp [hlast]

/-- C5 witness: one network failure then an unparseable response — exactly one
2-second backoff, then the immediate safe fallback. -/
theorem claim5_witness :
    analyze_with_gemini [.err "connection timeout", .err "unparseable response"] =
      (some (fallbackAnalysis "unparseable response"), [2]) := by
  have h := (claim5_retry_policy ["connection timeout"] (by decide)).1
    "unparseable response" [] (by decide)
  simpa using h

/-- Exhausting a non-empty all-failure attempt list always lands in the
fallback branch. -/
theorem analyzeGo_all_err (msgs : List String) :
    ∀ i : Nat, msgs ≠ [] →
    ∃ m, (analyzeGo i (msgs.map .err)).1 = some (fallbackAnalysis m) := by
  induction msgs with
  | nil => intro i h; cases h rfl
  | cons m rest ih =>
    intro i _
    rw [List.map_cons, analyzeGo_cons]
    by_cases hn : isNetworkError m = true
    · rcases rest with _ | ⟨m2, rest2⟩
      · exact ⟨m, by simp [hn]⟩
      · rcases ih (i + 1) (by simp) with ⟨m3, hm3⟩
        refine ⟨m3, ?_⟩
        simp only [hn, if_true, List.map_cons]
        simpa using hm3
    · have hn2 : isNetworkError m = false := by
        rcases hb : isNetworkError m with _ | _
        · rfl
        · cases hn hb
      exact ⟨m, by simp [hn2]⟩

/-- C4: with every LLM attempt failing, detection still returns a well-formed
result whose llm analysis is the safe fallback, whose top-level is_vague
reflects the rule engine alone; in general is_vague is the disjunction of the
two signals. -/
theorem claim4_degradation (text : String) (cid : Nat) (msgs : List String)
    (h : msgs ≠ []) :
    (∃ r, detect_vagueness_in_text text cid (msgs.map .err) = some r ∧
      r.gemini_analysis.is_vague = false ∧
      r.gemini_analysis.vague_phrases = [] ∧
      r.gemini_analysis.categories = [] ∧
      r.gemini_analysis.severity = "unknown" ∧
      r.is_vague = !(check_text_all_qualifiers text).isEmpty ∧
      (check_text_all_qualifiers text ≠ [] → r.is_vague = true)) ∧
    (∀ (attempts : List AttemptResult) (r2 : DetectionResult),
      detect_vagueness_in_text text cid attempts = some r2 →
      r2.is_vague = (!(check_text_all_qualifiers text).isEmpty || r2.gemini_analysis.is_vague)) := by
  constructor
  · rcases analyzeGo_all_err msgs 0 h with ⟨m, hm⟩
    have hdet : detect_vagueness_in_text text cid (msgs.map .err) = some
        { chunk_id := cid, text := text,
          is_vague := !(check_text_all_qualifiers text).isEmpty || (fallbackAnalysis m).is_vague,
          rule_based_matches := check_text_all_qualifiers text,
          gemini_analysis := fallbackAnalysis m,
          acronyms := detect_acronyms text,
          vagueness_score :=
            calculate_vagueness_score (check_text_all_qualifiers text) (fallbackAnalysis m) } := by
      unfold detect_vagueness_in_text
      rw [show (analyze_with_gemini (msgs.map .err)).1 = some (fallbackAnalysis m) from hm]
    refine ⟨_, hdet, rfl, rfl, rfl, rfl, ?_, ?_⟩
    · simp [fallbackAnalysis]
    · intro hne
      simp [fallbackAnalysis, isEmptyFalseOfNe hne]
  · intro attempts r2 h2
    unfold detect_vagueness_in_text at h2
    rcases hga : (analyze_with_gemini attempts).1 with _ | g
    · rw [hga] at h2; cases h2
    · rw [hga] at h2
      cases h2
      rfl

/-- C4 witness: a single failing attempt on an empty text gives the fallback
analysis and no vagueness flag. -/
theorem claim4_witness :
    (detect_vagueness_in_text "" 0 [.err "boom"]).map
      (fun r => (r.is_vague, r.gemini_analysis.is_vague, r.gemini_analysis.severity)) =
      some (false, false, "unknown") := by
  obtain ⟨⟨r, hr, h1, _, _, h4, h5, _⟩, _⟩ := claim4_degradation "" 0 ["boom"] (by simp)
  have hl : (["boom"].map AttemptResult.err) = [.err "boom"] := rfl
  rw [hl] at hr
  rw [hr]
  have hq : (check_text_all_qualifiers "").isEmpty = true := by decide
  simp [h1, h4, h5, hq]

/-- The concrete two-judgment scenario from the specification: a definition
judgment of relevance 0.9 and an example judgment of relevance 0.7, from two
distinct source documents. -/
def c1scenario : List RelevanceJudgment :=
  [{ is_relevant := true, relevance_score := 9/10, clarification_type := "definition",
     source_document := "docA" },
   { is_relevant := true, relevance_score := 7/10, clarification_type := "example",
     source_document := "docB" }]

/-- C1: the cross-reference score is the spec's piecewise value: 0.0 and
no_information on an empty judgment list; 0.1 and weak_connection when no
judgment is relevant; otherwise the capped weighted formula with diversity and
type bonuses and the 0.8 / 0.6 / 0.4 interpretation thresholds. In particular
the two-judgment scenario (definition 0.9, example 0.7, distinct documents)
scores 0.65 with interpretation moderate_clarification. -/
theorem claim1_cross_reference_piecewise :
    (∀ rj : List RelevanceJudgment,
      (rj = [] →
        calculate_cross_reference_score rj =
          (0, { score := 0, interpretation := "no_information", evidence_count := 0,
                clarification_types := [] })) ∧
      (rj ≠ [] → rj.filter (fun a => a.is_relevant) = [] →
        (calculate_cross_reference_score rj).1 = 1/10 ∧
        (calculate_cross_reference_score rj).2.interpretation = "weak_connection") ∧
      (rj.filter (fun a => a.is_relevant) ≠ [] →
        (calculate_cross_reference_score rj).1 =
          min ((1/2) *
              (((rj.filter (fun a => a.is_relevant)).map (fun c => c.relevance_score)).sum /
                ((rj.filter (fun a => a.is_relevant)).length : ℚ)) +
            (1/2) *
              (min ((1/10) *
                  (((rj.filter (fun a => a.is_relevant)).map
                    (fun c => c.source_document)).dedup.length : ℚ)) (3/10) +
                ((rj.filter (fun a => a.is_relevant)).map
                    (fun c => type_weight c.clarification_type)).sum /
                  ((rj.filter (fun a => a.is_relevant)).length : ℚ))) 1 ∧
        (calculate_cross_reference_score rj).2.interpretation =
          (if (calculate_cross_reference_score rj).1 ≥ 4/5 then "strong_clarification"
           else if (calculate_cross_reference_score rj).1 ≥ 3/5 then "moderate_clarification"
           else if (calculate_cross_reference_score rj).1 ≥ 2/5 then "partial_clarification"
           else "weak_clarification"))) ∧
    ((calculate_cross_reference_score c1scenario).1 = 13/20 ∧
     (calculate_cross_reference_score c1scenario).2.interpretation =
       "moderate_clarification") := by
  constructor
  · intro rj
    refine ⟨?_, ?_, ?_⟩
    · intro h
      subst h
      rfl
    · intro hne hfil
      have h1 : rj.isEmpty = false := isEmptyFalseOfNe hne
      simp [calculate_cross_reference_score, h1, hfil]
    · intro hrel
      have hne : rj ≠ [] := by
        intro h
        subst h
        exact hrel rfl
      have h1 : rj.isEmpty = false := isEmptyFalseOfNe hne
      have h2 : (rj.filter (fun a => a.is_relevant)).isEmpty = false := isEmptyFalseOfNe hrel
      constructor
      · simp only [calculate_cross_reference_score, h1, h2, Bool.false_eq_true, if_false,
          xrefFinalScore, xrefAvgRelevance, xrefDiversityBonus, xrefSourceDiversity,
          xrefTypeBonus, List.map_map, List.length_map, Function.comp_def]
        congr 1
        ring_nf
      · simp only [calculate_cross_reference_score, h1, h2, Bool.false_eq_true, if_false,
          xrefInterpretation]
  · have hfil : c1scenario.filter (fun a => a.is_relevant) = c1scenario := rfl
    have hd : (["docA", "docB"] : List String).dedup = ["docA", "docB"] := by decide
    constructor
    · simp [calculate_cross_reference_score, c1scenario, hfil, xrefFinalScore,
        xrefAvgRelevance, xrefDiversityBonus, xrefSourceDiversity, xrefTypeBonus, hd,
        type_weight, min_def]
      try norm_num
    · simp [calculate_cross_reference_score, c1scenario, hfil, xrefFinalScore,
        xrefAvgRelevance, xrefDiversityBonus, xrefSourceDiversity, xrefTypeBonus, hd,
        type_weight, xrefInterpretation, min_def]
      try norm_num

/-- C1 witness: a single irrelevant judgment lands in the weak_connection
branch with score 0.1. -/
theorem claim1_witness :
    (calculate_cross_reference_score
      [{ is_relevant := false, relevance_score := 1/2, clarification_type := "none",
         source_document := "docC" }]).1 = 1/10 ∧
    (calculate_cross_reference_score
      [{ is_relevant := false, relevance_score := 1/2, clarification_type := "none",
         source_document := "docC" }]).2.interpretation = "weak_connection" :=
  (claim1_cross_reference_piecewise.1
    [{ is_relevant := false, relevance_score := 1/2, clarification_type := "none",
       source_document := "docC" }]).2.1 (by simp) rfl

/-- Replacing one judgment's clarification type with one of at least equal
weight, holding every other field fixed, never lowers the final score. -/
theorem xrefFinalScoreTypeMono (A B : List RelevanceJudgment) (j j2 : RelevanceJudgment)
    (h1 : j2.relevance_score = j.relevance_score)
    (h2 : j2.source_document = j.source_document)
    (hw : type_weight j.clarification_type ≤ type_weight j2.clarification_type) :
    xrefFinalScore (A ++ j :: B) ≤ xrefFinalScore (A ++ j2 :: B) := by
  have havg : xrefAvgRelevance (A ++ j2 :: B) = xrefAvgRelevance (A ++ j :: B) := by
    simp [xrefAvgRelevance, h1]
  have hdiv : xrefDiversityBonus (A ++ j2 :: B) = xrefDiversityBonus (A ++ j :: B) := by
    simp [xrefDiversityBonus, xrefSourceDiversity, h2]
  have htype : xrefTypeBonus (A ++ j :: B) ≤ xrefTypeBonus (A ++ j2 :: B) := by
    unfold xrefTypeBonus
    simp only [List.map_append, List.map_cons, List.map_map, List.sum_append, List.sum_cons,
      List.length_map, List.length_append, List.length_cons, Function.comp]
    push_cast
    gcongr
  unfold xrefFinalScore
  rw [havg, hdiv]
  refine min_le_min (add_le_add_left ?_ _) le_rfl
  exact mul_le_mul_of_nonneg_right (add_le_add_left htype _) (by norm_num)

/-- C6: in a judgment list with at least one relevant judgment, upgrading one
relevant judgment's clarification type to a type of greater or equal weight,
holding all other fields and judgments fixed, never decreases the phrase's
cross-reference score. -/
theorem claim6_type_upgrade_monotone (p q2 : List RelevanceJudgment)
    (j : RelevanceJudgment) (t : String) (hrel : j.is_relevant = true)
    (hw : type_weight j.clarification_type ≤ type_weight t) :
    (calculate_cross_reference_score (p ++ j :: q2)).1 ≤
      (calculate_cross_reference_score (p ++ { j with clarification_type := t } :: q2)).1 := by
  have hrel2 : ({ j with clarification_type := t } : RelevanceJudgment).is_relevant = true := hrel
  have hfil1 : (p ++ j :: q2).filter (fun a => a.is_relevant) =
      p.filter (fun a => a.is_relevant) ++ j :: q2.filter (fun a => a.is_relevant) := by
    simp [List.filter_append, List.filter_cons, hrel]
  have hfil2 : (p ++ { j with clarification_type := t } :: q2).filter (fun a => a.is_relevant) =
      p.filter (fun a => a.is_relevant) ++
        { j with clarification_type := t } :: q2.filter (fun a => a.is_relevant) := by
    simp [List.filter_append, List.filter_cons, hrel, hrel2]
  have hne1 : (p ++ j :: q2).isEmpty = false := isEmptyFalseOfNe (by simp)
  have hne2 : (p ++ { j with clarification_type := t } :: q2).isEmpty = false :=
    isEmptyFalseOfNe (by simp)
  have hf1 : ((p ++ j :: q2).filter (fun a => a.is_relevant)).isEmpty = false := by
    rw [hfil1]
    exact isEmptyFalseOfNe (by simp)
  have hf2 : ((p ++ { j with clarification_type := t } :: q2).filter
      (fun a => a.is_relevant)).isEmpty = false := by
    rw [hfil2]
    exact isEmptyFalseOfNe (by simp)
  simp only [calculate_cross_reference_score, hne1, hne2, hf1, hf2, Bool.false_eq_true, if_false]
  rw [hfil1, hfil2]
  exact xrefFinalScoreTypeMono _ _ j { j with clarification_type := t } rfl rfl hw

/-- C6 witness: upgrading a lone relevant example judgment to a definition
judgment does not lower the score. -/
theorem claim6_witness :
    (calculate_cross_reference_score
      [{ is_relevant := true, relevance_score := 1/2, clarification_type := "example",
         source_document := "d" }]).1 ≤
    (calculate_cross_reference_score
      [{ is_relevant := true, relevance_score := 1/2, clarification_type := "definition",
         source_document := "d" }]).1 := by
  have h1 : type_weight "example" = 1/5 := by
    unfold type_weight
    rw [if_neg (by decide), if_neg (by decide), if_neg (by decide), if_pos rfl]
  have h2 : type_weight "definition" = 2/5 := by
    unfold type_weight
    rw [if_pos rfl]
  have h := claim6_type_upgrade_monotone [] []
    { is_relevant := true, relevance_score := 1/2, clarification_type := "example",
      source_document := "d" } "definition" rfl (by rw [h1, h2]; norm_num)
  simpa using h

/-! The chunker: unfolding equations and sentence-integrity invariants. -/

theorem overlapGoCons (ov : Nat) (a : String) (rest : List String) (chars : Nat)
    (acc : List String) :
    overlapGo ov (a :: rest) chars acc =
      if ov ≤ chars + a.length then a :: acc
      else overlapGo ov rest (chars + a.length) (a :: acc) := rfl

theorem chunkGoCons (cs ov : Nat) (base s : String) (rest : List String) (i : Nat)
    (cur : List String) (len cid : Nat) :
    chunkGo cs ov base (s :: rest) i cur len cid =
      if cs < len + s.length ∧ ¬cur.isEmpty then
        mkChunk base cid cur i ::
          chunkGo cs ov base rest (i + 1) (get_overlap_sentences ov cur ++ [s])
            (((get_overlap_sentences ov cur).map String.length).sum + s.length) (cid + 1)
      else chunkGo cs ov base rest (i + 1) (cur ++ [s]) (len + s.length) cid := rfl

theorem overlapGoMem (ov : Nat) (P : String → Prop) :
    ∀ (l : List String) (chars : Nat) (acc : List String),
      (∀ s ∈ l, P s) → (∀ s ∈ acc, P s) → ∀ s ∈ overlapGo ov l chars acc, P s := by
  intro l
  induction l with
  | nil =>
    intro chars acc _ hacc s hs
    exact hacc s hs
  | cons a rest ih =>
    intro chars acc hl hacc s hs
    rw [overlapGoCons] at hs
    by_cases h : ov ≤ chars + a.length
    · rw [if_pos h] at hs
      rcases List.mem_cons.mp hs with h1 | h2
      · exact h1 ▸ hl a (List.mem_cons_self _ _)
      · exact hacc s h2
    · rw [if_neg h] at hs
      refine ih (chars + a.length) (a :: acc) (fun x hx => hl x (List.mem_cons_of_mem _ hx))
        ?_ s hs
      intro x hx
      rcases List.mem_cons.mp hx with h1 | h2
      · exact h1 ▸ hl a (List.mem_cons_self _ _)
      · exact hacc x h2

theorem getOverlapMem (ov : Nat) (cur : List String) :
    ∀ s ∈ get_overlap_sentences ov cur, s ∈ cur := by
  intro s hs
  refine overlapGoMem ov (fun x => x ∈ cur) cur.reverse 0 [] ?_ ?_ s hs
  · intro x hx
    exact List.mem_reverse.mp hx
  · intro x hx
    simp at hx

/-- Every chunk the accumulation loop emits is the space-join of a non-empty
list of sentences drawn from the current chunk and the remaining sentences. -/
theorem chunkGoText (cs ov : Nat) (base : String) (P : String → Prop) :
    ∀ (rest : List String) (i : Nat) (cur : List String) (len cid : Nat),
      (∀ s ∈ rest, P s) → (∀ s ∈ cur, P s) →
      ∀ c ∈ chunkGo cs ov base rest i cur len cid,
        ∃ l, l ≠ [] ∧ c.text = joinSpace l ∧ ∀ s ∈ l, P s := by
  intro rest
  induction rest with
  | nil =>
    intro i cur len cid _ hcur c hc
    by_cases h : cur.isEmpty
    · simp [chunkGo, h] at hc
    · simp only [chunkGo, h, Bool.false_eq_true, if_false] at hc
      rcases List.mem_singleton.mp hc with rfl
      refine ⟨cur, ?_, rfl, hcur⟩
      intro hcur0
      rw [hcur0] at h
      exact h rfl
  | cons s srest ih =>
    intro i cur len cid hrest hcur c hc
    rw [chunkGoCons] at hc
    by_cases h : cs < len + s.length ∧ ¬cur.isEmpty
    · rw [if_pos h] at hc
      rcases List.mem_cons.mp hc with h1 | h2
      · refine ⟨cur, ?_, h1 ▸ rfl, hcur⟩
        intro hcur0
        rw [hcur0] at h
        exact h.2 rfl
      · refine ih (i + 1) (get_overlap_sentences ov cur ++ [s]) _ _
          (fun x hx => hrest x (List.mem_cons_of_mem _ hx)) ?_ c h2
        intro x hx
        rcases List.mem_append.mp hx with hx1 | hx2
        · exact hcur x (getOverlapMem ov cur x hx1)
        · rcases List.mem_singleton.mp hx2 with rfl
          exact hrest x (List.mem_cons_self _ _)
    · rw [if_neg h] at hc
      refine ih (i + 1) (cur ++ [s]) _ _
        (fun x hx => hrest x (List.mem_cons_of_mem _ hx)) ?_ c hc
      intro x hx
      rcases List.mem_append.mp hx with hx1 | hx2
      · exact hcur x hx1
      · rcases List.mem_singleton.mp hx2 with rfl
        exact hrest x (List.mem_cons_self _ _)

/-- C7: empty input (no sentences after splitting) yields zero chunks; every
emitted chunk is the space-join of whole sentences of the input (a sentence
longer than the target is carried whole, never split); and the loop closes a
chunk exactly when the next sentence would push the accumulated character
count past chunk_size while the current chunk is non-empty. -/
theorem claim7_chunk_by_sentences :
    (∀ (cs ov : Nat) (text filename : String),
      split_into_sentences text = [] → chunk_by_sentences cs ov text filename = []) ∧
    (∀ (cs ov : Nat) (text filename : String),
      ∀ c ∈ chunk_by_sentences cs ov text filename,
        ∃ l, l ≠ [] ∧ c.text = joinSpace l ∧ ∀ s ∈ l, s ∈ split_into_sentences text) ∧
    (∀ (cs ov : Nat) (base s : String) (rest : List String) (i : Nat) (cur : List String)
      (len cid : Nat),
      chunkGo cs ov base (s :: rest) i cur len cid =
        if cs < len + s.length ∧ ¬cur.isEmpty then
          mkChunk base cid cur i ::
            chunkGo cs ov base rest (i + 1) (get_overlap_sentences ov cur ++ [s])
              (((get_overlap_sentences ov cur).map String.length).sum + s.length) (cid + 1)
        else chunkGo cs ov base rest (i + 1) (cur ++ [s]) (len + s.length) cid) := by
  refine ⟨?_, ?_, ?_⟩
  · intro cs ov text fn h
    simp only [chunk_by_sentences, h]
    rfl
  · intro cs ov text fn c hc
    simp only [chunk_by_sentences] at hc
    exact chunkGoText cs ov (sanitizeBase fn) (fun x => x ∈ split_into_sentences text)
      (split_into_sentences text) 0 [] 0 0 (fun x hx => hx) (by simp) c hc
  · intro cs ov base s rest i cur len cid
    exact chunkGoCons cs ov base s rest i cur len cid

/-- C7 witness: whitespace-only input has no sentences and produces no chunks. -/
theorem claim7_witness : chunk_by_sentences 500 100 " " "a.pdf" = [] :=
  claim7_chunk_by_sentences.1 500 100 " " "a.pdf" (by decide)

/-! The specification's rule-engine scenario sentence. -/

def paymentSentence : String :=
  "Payment will be issued upon satisfactory completion of work."

theorem analyzeGoIsSome (l : List AttemptResult) :
    ∀ i : Nat, l ≠ [] → ((analyzeGo i l).1).isSome = true := by
  induction l with
  | nil => intro i h; cases h rfl
  | cons a rest ih =>
    intro i _
    rw [analyzeGo_cons]
    cases a with
    | ok g => rfl
    | err m =>
      by_cases hn : isNetworkError m = true
      · rcases rest with _ | ⟨b, rest2⟩
        · simp [hn]
        · simp only [hn, if_true]
          simpa using ih (i + 1) (by simp)
      · have hn2 : isNetworkError m = false := by
          rcases hb : isNetworkError m with _ | _
          · rfl
          · cases hn hb
        simp [hn2]

/-- C2: on the payment sentence the rule engine fires on negative_passive with
the pattern match "will be issued" and on abstractness_subjective with
"satisfactory"; any detection over it is flagged vague regardless of the LLM
outcome, and the rule component is at least 0.2. -/
theorem claim2_payment_sentence :
    (∃ p ∈ check_text_all_qualifiers paymentSentence, p.1 = "negative_passive" ∧
      ∃ mr ∈ p.2, mr.mtype = "pattern" ∧ mr.matched = "will be issued") ∧
    (∃ p ∈ check_text_all_qualifiers paymentSentence, p.1 = "abstractness_subjective" ∧
      ∃ mr ∈ p.2, mr.matched = "satisfactory") ∧
    (∀ (cid : Nat) (attempts : List AttemptResult), attempts ≠ [] →
      (detect_vagueness_in_text paymentSentence cid attempts).map (fun r => r.is_vague) =
        some true) ∧
    1/5 ≤ ruleComponent (check_text_all_qualifiers paymentSentence) := by
  refine ⟨?_, ?_, ?_, ?_⟩
  · decide
  · decide
  · intro cid attempts hne
    have h := analyzeGoIsSome attempts 0 hne
    rcases hsome : (analyze_with_gemini attempts).1 with _ | g
    · unfold analyze_with_gemini at hsome
      rw [hsome] at h
      cases h
    · unfold detect_vagueness_in_text
      rw [hsome]
      have hq : (check_text_all_qualifiers paymentSentence).isEmpty = false := by decide
      simp [hq]
  · have htot : totalRuleMatches (check_text_all_qualifiers paymentSentence) = 6 := by decide
    have hne2 : (check_text_all_qualifiers paymentSentence).isEmpty = false := by decide
    simp only [ruleComponent, hne2, Bool.false_eq_true, if_false, htot]
    norm_num [min_def]

/-- C2 witness: a concrete detection over the payment sentence, with an LLM
response that itself finds nothing, is still flagged vague. -/
theorem claim2_witness :
    (detect_vagueness_in_text paymentSentence 0
      [.ok { is_vague := false, vague_phrases := [], categories := [], explanation := "",
             severity := "low" }]).map (fun r => r.is_vague) = some true :=
  claim2_payment_sentence.2.2.1 0
    [.ok { is_vague := false, vague_phrases := [], categories := [], explanation := "",
           severity := "low" }] (by simp)

end MTP
